import Mathlib

/-!
Shallow embedding of the jitsi-slack slash-command handlers
(`handlers.go`, `slack_messages.go`).  External collaborators (the Slack
web API, the token store, the server-config store, the JWT signer and the
HMAC check of `signature.go`, which is outside the provided sources) are
modelled as explicit function parameters; every handler is a pure function
from those parameters and the request data to an HTTP response value.
A `none` result models a Go runtime panic.  Traces record, for each
invocation, which external effects the code performed (whether the HMAC
was computed, whether the token store was queried, which recipients an
invite send was attempted for).
-/

namespace JitsiSlack

/-- Slack API error strings recognised by the handlers (handlers.go). -/
def errInvalidAuth : String := "invalid_auth"

/-- Slack error string for an inactive account (handlers.go). -/
def errInactiveAccount : String := "account_inactive"

/-- Slack error string for a missing auth token (handlers.go). -/
def errMissingAuthToken : String := "not_authed"

/-- An HTTP response as observed by the caller: status plus body. -/
inductive HResp where
  | unauthorized
  | internalError
  | okBody (body : String)
deriving DecidableEq, Repr

/-- Message templates from slack_messages.go.  `roomTemplate` is the Go
template with its three `%s` verbs applied (host, host, url). -/
def roomTemplate (host1 host2 url : String) : String :=
  "\x7b\n\t\t\"response_type\":\"in_channel\",\n\t\t\"attachments\":[\x7b\n\t\t\t\"fallback\":\"Meeting started on "
    ++ host1
    ++ "\",\n\t\t\t\"title\":\"Meeting started on "
    ++ host2
    ++ "\",\n\t\t\t\"color\":\"#3AA3E3\",\n\t\t\t\"attachment_type\":\"default\",\n\t\t\t\"actions\":[\x7b\n\t\t\t\t\"name\":\"join\",\n\t\t\t\t\"text\":\"Join\",\n\t\t\t\t\"type\":\"button\",\n\t\t\t\t\"url\":\""
    ++ url
    ++ "\",\n\t\t\t\t\"style\":\"primary\"\n\t\t\t\x7d]\n\t\t\x7d]\n\t\x7d"

/-- The `userTemplate` of slack_messages.go with its `%s` verbs applied. -/
def userTemplate (host1 host2 url : String) : String :=
  "\x7b\n\t\t\"response_type\":\"ephemeral\",\n\t\t\"attachments\":[\x7b\n\t\t\t\"fallback\":\"Invitations have been sent for your meeting on "
    ++ host1
    ++ "\",\n\t\t\t\"title\":\"Invitations have been sent for your meeting on "
    ++ host2
    ++ "\",\n\t\t\t\"color\":\"#3AA3E3\",\n\t\t\t\"attachment_type\":\"default\",\n\t\t\t\"actions\":[\x7b\n\t\t\t\t\"name\":\"join\",\n\t\t\t\t\"text\":\"Join\",\n\t\t\t\t\"type\":\"button\",\n\t\t\t\t\"url\":\""
    ++ url
    ++ "\",\n\t\t\t\t\"style\":\"primary\"\n\t\t\t\x7d]\n\t\t\x7d]\n\t\x7d"

/-- The constant `helpMessage` of slack_messages.go (a Go raw string, so
the `\n` inside the attachment text is the two literal characters). -/
def helpMessage : String :=
  "\x7b\n\t\t\"response_type\":\"ephemeral\",\n\t\t\"text\":\"How to use /jitsi...\",\n\t\t\"attachments\":[\x7b\n\t\t\t\"text\":\"To share a conference link with the channel, use \x27/jitsi\x27. Now everyone can join.\\nTo share a conference link with users, use \x27jitsi @bob @alice\x27. Now you can meet with Bob and Alice.\"\n\t\t\x7d]\n\t\x7d"

/-- The `installMessage` template of slack_messages.go with its `%s` verb
applied to the sharable URL (the `install` helper of handlers.go). -/
def installMessage (sharableURL : String) : String :=
  "\x7b\n\t\t\"response_type\":\"ephemeral\",\n\t\t\"text\":\"Please install the jitsi meet app to integrate with your slack workspace.\",\n\t\t\"attachments\":[\x7b\"text\":\""
    ++ sharableURL
    ++ "\"\x7d]\n\t\x7d"

/-- Response body when `server default` succeeds (configureServer). -/
def defaultServerMsg : String :=
  "Your team\x27s conferences will now be hosted on https://meet.jit.si"

/-- Response body when a bad host is supplied (configureServer). -/
def properHostMsg : String :=
  "A proper conference host must be provided."

/-- Response body when storing a new host succeeds (configureServer),
with the `%s` verb applied to the host. -/
def configuredServerMsg (host : String) : String :=
  "Your team\x27s conferences will now be hosted on "
    ++ host
    ++ "\nRun \x60/jitsi server default\x60 if you\x27d like to continue using https://meet.jit.si"

/-! ### Character-level models of the regular expressions of handlers.go -/

/-- Characters matched by `[^>|]` in `atMentionRE`. -/
def mentionRunChar (c : Char) : Bool := !(c = '>' || c = '|')

/-- One scanning pass of `atMentionRE.FindAllStringSubmatch`: the first
argument is `none` while searching for the next `<@` and `some acc` while
greedily collecting a `[^>|]+` run (accumulated in reverse).  As in the
regex engine, a failed match attempt advances the scan by one character;
characters that can neither start nor continue a match are skipped. -/
def atMentionGo : Option (List Char) → List Char → List (List Char)
  | none, [] => []
  | none, '<' :: '@' :: d :: r2 =>
    if mentionRunChar d then atMentionGo (some [d]) r2
    else atMentionGo none r2
  | none, _ :: rest => atMentionGo none rest
  | some acc, [] => [acc.reverse]
  | some acc, c :: rest =>
    if mentionRunChar c then atMentionGo (some (c :: acc)) rest
    else acc.reverse :: atMentionGo none rest

/-- The captures of `atMentionRE.FindAllStringSubmatch(text, -1)`:
every `<@([^>|]+)` match of the text, left to right, capture only. -/
def atMentionFindAll (l : List Char) : List (List Char) :=
  atMentionGo none l

/-- Characters matched by `\s` in RE2 (`[\t\n\f\r ]`). -/
def isSpaceGo (c : Char) : Bool :=
  c = ' ' || c = '\t' || c = '\n' || c = '\x0c' || c = '\r'

/-- Strip an expected literal prefix, returning the remainder. -/
def stripPrefixList : List Char → List Char → Option (List Char)
  | [], l => some l
  | _ :: _, [] => none
  | p :: ps, c :: cs => if c = p then stripPrefixList ps cs else none

/-- The longest prefix of the list ending in `'>'`, if any (used for the
leftmost-longest match of `\S+>`). -/
def longestPrefixEndingGt : List Char → Option (List Char)
  | [] => none
  | c :: rest =>
    match longestPrefixEndingGt rest with
    | some p => some (c :: p)
    | none => if c = '>' then some [c] else none

/-- The capture of `serverConfigRE` = `^server\s+(<https?:\/\/\S+>)` on
the text, when the regex matches: after the literal `server`, one or more
whitespace characters, then `<http`, an optional `s`, `://`, and then the
longest run of non-space characters that ends in `'>'` and has at least
one character before that `'>'`. -/
def serverConfigFind (l : List Char) : Option (List Char) :=
  match stripPrefixList "server".data l with
  | none => none
  | some r =>
    if (r.takeWhile isSpaceGo).isEmpty then none
    else
      match stripPrefixList "<http".data (r.dropWhile isSpaceGo) with
      | none => none
      | some r2 =>
        match stripPrefixList "s://".data r2 with
        | some r3 =>
          match longestPrefixEndingGt (r3.takeWhile (fun c => !(isSpaceGo c))) with
          | some p => if 2 ≤ p.length then some ("<https://".data ++ p) else none
          | none => none
        | none =>
          match stripPrefixList "://".data r2 with
          | some r3 =>
            match longestPrefixEndingGt (r3.takeWhile (fun c => !(isSpaceGo c))) with
            | some p => if 2 ≤ p.length then some ("<http://".data ++ p) else none
            | none => none
          | none => none

/-- `strings.Split(text, sep)` for a one-character separator. -/
def splitOnChar (sep : Char) : List Char → List (List Char)
  | [] => [[]]
  | c :: rest =>
    if c = sep then [] :: splitOnChar sep rest
    else
      match splitOnChar sep rest with
      | [] => [[c]]
      | g :: gs => (c :: g) :: gs

/-- `strings.Trim(s, "<>")`: remove leading and trailing `'<'`/`'>'`. -/
def trimAngle (l : List Char) : List Char :=
  ((l.dropWhile fun c => c = '<' || c = '>').reverse.dropWhile
    fun c => c = '<' || c = '>').reverse

/-- Prefix test on character lists; `helpCmdRE`/`serverCmdRE` are the
anchored literal patterns `^help` and `^server`. -/
def startsWithList : List Char → List Char → Bool
  | [], _ => true
  | _ :: _, [] => false
  | p :: ps, c :: cs => p = c && startsWithList ps cs

/-- `helpCmdRE.MatchString text`. -/
def helpCmdMatch (text : String) : Bool := startsWithList "help".data text.data

/-- `serverCmdRE.MatchString text`. -/
def serverCmdMatch (text : String) : Bool := startsWithList "server".data text.data

/-- `strings.ToLower` (ASCII case folding of the embedding). -/
def toLowerGo (s : String) : String := String.mk (s.data.map Char.toLower)

/-! ### Data model -/

/-- Per-workspace server configuration (fields as read in handlers.go). -/
structure ServerCfg where
  server : String
  tenantScopedURLs : Bool
  authenticatedURLSupport : Bool
deriving DecidableEq, Repr

/-- Record stored by `ServerConfigWriter.Store` (fields as written in
configureServer). -/
structure ServerCfgData where
  teamID : String
  server : String
deriving DecidableEq, Repr

/-- Claim set passed to `MeetingTokenGenerator.CreateJWT`. -/
structure JWTInput where
  tenantID : String
  tenantName : String
  roomClaim : String
  userID : String
  userName : String
  avatarURL : String
deriving DecidableEq, Repr

/-- An ephemeral meeting value (handlers.go `Meeting`). -/
structure Meeting where
  roomName : String
  url : String
  host : String
  authenticatedURL : String → String → String → Except String String

/-- The meeting generator: its server-config reader and JWT signer are
external collaborators, modelled as functions.  `RandomName()` is defined
outside the provided sources; it is modelled by the `randomName` field,
the value it returns for this invocation. -/
structure MeetingGenerator where
  serverConfigRead : String → Except String ServerCfg
  createJWT : JWTInput → Except String String
  randomName : String

/-- `MeetingGenerator.New(teamID, teamName)` of handlers.go. -/
def MeetingGenerator.new (m : MeetingGenerator) (teamID teamName : String) :
    Except String Meeting :=
  match m.serverConfigRead teamID with
  | .error e => .error e
  | .ok srv =>
    let roomName := m.randomName
    let url :=
      if srv.tenantScopedURLs then
        srv.server ++ "/" ++ toLowerGo teamName ++ "/" ++ roomName
      else
        srv.server ++ "/" ++ roomName
    .ok
      { roomName := roomName
        url := url
        host := srv.server
        authenticatedURL :=
          if srv.authenticatedURLSupport then
            fun userID userName avatarURL =>
              match m.createJWT
                  ⟨teamID, teamName, roomName, userID, userName, avatarURL⟩ with
              | .error e => .error e
              | .ok jwt => .ok (url ++ "?jwt=" ++ jwt)
          else
            fun _ _ _ => .ok url }

/-- Slack user data used by slack_messages.go (`ID`, `Name`,
`Profile.Image192`). -/
structure UserInfo where
  id : String
  name : String
  image192 : String
deriving DecidableEq, Repr

/-- The Slack web-API calls made by slack_messages.go, abstracted:
`getUserInfo`, `openConversation` (user to channel ID) and `postMessage`
(channel, attachment title, button URL). -/
structure SlackAPI where
  getUserInfo : String → Except String UserInfo
  openConversation : String → Except String String
  postMessage : String → String → String → Except String Unit

/-- `sendPersonalizedInvite` of slack_messages.go. -/
def sendPersonalizedInvite (slackClient : SlackAPI) (hostID userID : String)
    (meeting : Meeting) : Except String Unit := do
  let userInfo ← slackClient.getUserInfo userID
  let msg := "<@" ++ hostID ++ "> would like you to join a meeting on " ++ meeting.host
  let meetingURL ← meeting.authenticatedURL userInfo.id userInfo.name userInfo.image192
  let channel ← slackClient.openConversation userID
  slackClient.postMessage channel msg meetingURL

/-- `joinPersonalMeetingMsg` of slack_messages.go (on error Go returns
the empty string together with the error; the error alone determines the
caller's behaviour, so the result is an `Except`). -/
def joinPersonalMeetingMsg (slackClient : SlackAPI) (userID : String)
    (meeting : Meeting) : Except String String := do
  let userInfo ← slackClient.getUserInfo userID
  let meetingURL ← meeting.authenticatedURL userInfo.id userInfo.name userInfo.image192
  return userTemplate meeting.host meeting.host meetingURL

/-! ### The slash-command handlers -/

/-- The `ServerConfigWriter` collaborator of configureServer. -/
structure ConfigStoreEnv where
  store : ServerCfgData → Except String Unit
  remove : String → Except String Unit

/-- The collaborators of dispatchInvites: the meeting generator, the
token store read (`GetFirstBotTokenForTeam` for the fixed team of the
request), the Slack client constructor (`slack.New`) and the sharable
install URL. -/
structure SlashCommandEnv where
  meetingGen : MeetingGenerator
  getFirstBotTokenForTeam : Except String String
  slackClient : String → SlackAPI
  sharableURL : String

/-- The `install` helper of handlers.go. -/
def installResponse (sharableURL : String) : HResp :=
  .okBody (installMessage sharableURL)

/-- True for the three Slack error strings that handlers.go treats as
credential invalidation. -/
def credentialErr (e : String) : Bool :=
  e = errInvalidAuth || e = errInactiveAccount || e = errMissingAuthToken

/-- Whether a send outcome is a credential-invalidation failure. -/
def isCredFail : Except String Unit → Bool
  | .error e => credentialErr e
  | .ok _ => false

/-- The per-recipient invite loop of dispatchInvites: returns the early
response, if the loop aborted with an install prompt, together with the
list of recipients for which a send was attempted. -/
def inviteEach (send : String → Except String Unit) (sharableURL : String) :
    List String → Option HResp × List String
  | [] => (none, [])
  | u :: rest =>
    match send u with
    | .error e =>
      if credentialErr e then (some (installResponse sharableURL), [u])
      else
        let r := inviteEach send sharableURL rest
        (r.1, u :: r.2)
    | .ok _ =>
      let r := inviteEach send sharableURL rest
      (r.1, u :: r.2)

/-- Effects of one dispatchInvites run: whether the token store was
queried and which recipients an invite send was attempted for. -/
structure DispatchTrace where
  queriedTokenStore : Bool
  attempted : List String
deriving DecidableEq, Repr

/-- `dispatchInvites` of handlers.go. -/
def dispatchInvites (s : SlashCommandEnv) (teamID teamName text userID : String) :
    HResp × DispatchTrace :=
  match s.meetingGen.new teamID teamName with
  | .error _ => (.internalError, ⟨false, []⟩)
  | .ok meeting =>
    if (atMentionFindAll text.data).isEmpty then
      (.okBody (roomTemplate meeting.host meeting.host meeting.url), ⟨false, []⟩)
    else
      match s.getFirstBotTokenForTeam with
      | .error e =>
        if e = errMissingAuthToken then (installResponse s.sharableURL, ⟨true, []⟩)
        else (.internalError, ⟨true, []⟩)
      | .ok token =>
        match inviteEach
            (fun uid => sendPersonalizedInvite (s.slackClient token) userID uid meeting)
            s.sharableURL
            ((atMentionFindAll text.data).map fun m => String.mk m) with
        | (some resp, attempted) => (resp, ⟨true, attempted⟩)
        | (none, attempted) =>
          match joinPersonalMeetingMsg (s.slackClient token) userID meeting with
          | .error e =>
            if credentialErr e then (installResponse s.sharableURL, ⟨true, attempted⟩)
            else (.okBody "", ⟨true, attempted⟩)
          | .ok resp => (.okBody resp, ⟨true, attempted⟩)

/-- `configureServer` of handlers.go.  A `none` result models the Go
runtime panic raised by `configuration[1]` when the split produces fewer
than two tokens. -/
def configureServer (writer : ConfigStoreEnv) (teamID text : String) :
    Option HResp :=
  match (splitOnChar ' ' text.data).get? 1 with
  | none => none
  | some tok =>
    if tok = "default".data then
      match writer.remove teamID with
      | .error _ => some .internalError
      | .ok _ => some (.okBody defaultServerMsg)
    else
      match serverConfigFind text.data with
      | none => some (.okBody properHostMsg)
      | some cap =>
        let host := String.mk (trimAngle cap)
        match writer.store ⟨teamID, host⟩ with
        | .error _ => some .internalError
        | .ok _ => some (.okBody (configuredServerMsg host))

/-- The form fields read by the handlers. -/
structure FormData where
  text : String
  teamID : String
  teamName : String
  userID : String
deriving DecidableEq, Repr

/-- Effects of one full Jitsi-handler run. -/
structure Trace where
  hmacComputed : Bool
  queriedTokenStore : Bool
  attempted : List String
deriving DecidableEq, Repr

/-- The request-level inputs and collaborators of the `Jitsi` handler.
Go's `Header.Get` returns the empty string for an absent header, so an
absent timestamp or signature header is modelled by `""`.  `ValidRequest`
(signature.go, outside the provided sources) is an abstract function of
the secret, body, timestamp and signature. -/
structure JitsiEnv where
  timestampHeader : String
  signatureHeader : String
  readBody : Except String String
  validRequest : String → String → String → String → Bool
  slackSigningSecret : String
  parseForm : Except String FormData
  serverConfigWriter : ConfigStoreEnv
  slash : SlashCommandEnv

/-- `handleRequestValidation` of handlers.go: `some resp` means the
handler responds with `resp` and stops; `none` means validation passed.
The boolean records whether `ValidRequest` (the HMAC check) was invoked. -/
def handleRequestValidation (e : JitsiEnv) : Option HResp × Bool :=
  if e.timestampHeader = "" ∨ e.signatureHeader = "" then
    (some .unauthorized, false)
  else
    match e.readBody with
    | .error _ => (some .internalError, false)
    | .ok body =>
      if e.validRequest e.slackSigningSecret body e.timestampHeader e.signatureHeader
      then (none, true)
      else (some .unauthorized, true)

/-- The `Jitsi` slash-command handler of handlers.go.  A `none` result
models a runtime panic in a sub-handler. -/
def jitsi (e : JitsiEnv) : Option (HResp × Trace) :=
  match handleRequestValidation e with
  | (some resp, hm) => some (resp, ⟨hm, false, []⟩)
  | (none, hm) =>
    match e.parseForm with
    | .error _ => some (.internalError, ⟨hm, false, []⟩)
    | .ok form =>
      if helpCmdMatch form.text then
        some (.okBody helpMessage, ⟨hm, false, []⟩)
      else if serverCmdMatch form.text then
        (configureServer e.serverConfigWriter form.teamID form.text).map
          fun resp => (resp, ⟨hm, false, []⟩)
      else
        match dispatchInvites e.slash form.teamID form.teamName form.text form.userID with
        | (resp, dt) => some (resp, ⟨hm, dt.queriedTokenStore, dt.attempted⟩)

/-! ### Claim C9: request validation fails closed on missing headers -/

/-- C9: for every inbound request in which the timestamp header or the
signature header is absent or empty, the response is HTTP 401, the HMAC
(`ValidRequest`) is never computed, and no further processing occurs (the
token store is not queried and no invite send is attempted). -/
theorem jitsi_missing_headers_unauthorized (e : JitsiEnv)
    (h : e.timestampHeader = "" ∨ e.signatureHeader = "") :
    jitsi e = some (.unauthorized, ⟨false, false, []⟩) := by
  simp only [jitsi, handleRequestValidation, if_pos h]

/-- Request environment with the timestamp header absent and everything
else well formed. -/
def envC9 : JitsiEnv :=
  { timestampHeader := ""
    signatureHeader := "v0=sig"
    readBody := .ok "body"
    validRequest := fun _ _ _ _ => true
    slackSigningSecret := "secret"
    parseForm := .ok ⟨"help", "T9", "team9", "U9"⟩
    serverConfigWriter := ⟨fun _ => .ok (), fun _ => .ok ()⟩
    slash :=
      { meetingGen := ⟨fun _ => .ok ⟨"https://meet.jit.si", false, false⟩, fun _ => .ok "", "room"⟩
        getFirstBotTokenForTeam := .ok "tok"
        slackClient := fun _ => ⟨fun u => .ok ⟨u, "n", "i"⟩, fun _ => .ok "D", fun _ _ _ => .ok ()⟩
        sharableURL := "https://share.example" } }

/-- Witness for C9 at a concrete request with an empty timestamp header. -/
theorem jitsi_missing_headers_unauthorized_witness :
    jitsi envC9 = some (.unauthorized, ⟨false, false, []⟩) :=
  jitsi_missing_headers_unauthorized envC9 (Or.inl rfl)

/-! ### Claim C5: command routing priority -/

/-- C5: once validation and form parsing succeed, routing is decided in
priority order: a `help` prefix yields the help response; otherwise a
`server` prefix is handled by configureServer; every other text,
including the empty string, is handled by dispatchInvites. -/
theorem jitsi_routing (e : JitsiEnv) (form : FormData) (body : String)
    (hts : ¬ e.timestampHeader = "") (hsig : ¬ e.signatureHeader = "")
    (hbody : e.readBody = .ok body)
    (hvalid : e.validRequest e.slackSigningSecret body e.timestampHeader e.signatureHeader = true)
    (hform : e.parseForm = .ok form) :
    (helpCmdMatch form.text = true →
       jitsi e = some (.okBody helpMessage, ⟨true, false, []⟩)) ∧
    (helpCmdMatch form.text = false → serverCmdMatch form.text = true →
       jitsi e = (configureServer e.serverConfigWriter form.teamID form.text).map
         fun resp => (resp, ⟨true, false, []⟩)) ∧
    (helpCmdMatch form.text = false → serverCmdMatch form.text = false →
       jitsi e = some
         ((dispatchInvites e.slash form.teamID form.teamName form.text form.userID).1,
          ⟨true,
           (dispatchInvites e.slash form.teamID form.teamName form.text form.userID).2.queriedTokenStore,
           (dispatchInvites e.slash form.teamID form.teamName form.text form.userID).2.attempted⟩)) := by
  refine ⟨fun h1 => ?_, fun h1 h2 => ?_, fun h1 h2 => ?_⟩ <;>
    simp [jitsi, handleRequestValidation, hts, hsig, hbody, hvalid, hform, h1]
  · simp [h2]
  · simp [h2]

/-- Request environment whose command text is `help me`. -/
def envC5 : JitsiEnv :=
  { timestampHeader := "1234"
    signatureHeader := "v0=sig"
    readBody := .ok "body"
    validRequest := fun _ _ _ _ => true
    slackSigningSecret := "secret"
    parseForm := .ok ⟨"help me", "T5", "team5", "U5"⟩
    serverConfigWriter := ⟨fun _ => .ok (), fun _ => .ok ()⟩
    slash :=
      { meetingGen := ⟨fun _ => .ok ⟨"https://meet.jit.si", false, false⟩, fun _ => .ok "", "room"⟩
        getFirstBotTokenForTeam := .ok "tok"
        slackClient := fun _ => ⟨fun u => .ok ⟨u, "n", "i"⟩, fun _ => .ok "D", fun _ _ _ => .ok ()⟩
        sharableURL := "https://share.example" } }

/-- Witness for C5: the `help me` text routes to the help response. -/
theorem jitsi_routing_witness :
    jitsi envC5 = some (.okBody helpMessage, ⟨true, false, []⟩) :=
  (jitsi_routing envC5 ⟨"help me", "T5", "team5", "U5"⟩ "body"
    (by decide) (by decide) rfl rfl rfl).1 rfl

/-! ### Claim C2: `server` with no arguments panics (code bug) -/

/-- Request environment whose command text is the bare word `server`. -/
def envC2 : JitsiEnv :=
  { timestampHeader := "1234"
    signatureHeader := "v0=sig"
    readBody := .ok "body"
    validRequest := fun _ _ _ _ => true
    slackSigningSecret := "secret"
    parseForm := .ok ⟨"server", "T2", "team2", "U2"⟩
    serverConfigWriter := ⟨fun _ => .ok (), fun _ => .ok ()⟩
    slash :=
      { meetingGen := ⟨fun _ => .ok ⟨"https://meet.jit.si", false, false⟩, fun _ => .ok "", "room"⟩
        getFirstBotTokenForTeam := .ok "tok"
        slackClient := fun _ => ⟨fun u => .ok ⟨u, "n", "i"⟩, fun _ => .ok "D", fun _ _ _ => .ok ()⟩
        sharableURL := "https://share.example" } }

/-- C2 fails on the code: for the bare text `server`, splitting on a
space yields a single token, so the `configuration[1]` access of
configureServer is out of range — a runtime panic (modelled by `none`),
not the instructional 200 response the claim asserts.  For a two-token
text that matches neither `default` nor the URL pattern the handler does
answer with the instruction. -/
theorem configureServer_bare_server_panic :
    (splitOnChar ' ' "server".data).length = 1 ∧
    configureServer ⟨fun _ => .ok (), fun _ => .ok ()⟩ "T2" "server" = none ∧
    jitsi envC2 = none ∧
    configureServer ⟨fun _ => .ok (), fun _ => .ok ()⟩ "T2" "server not-a-url"
      = some (.okBody properHostMsg) :=
  ⟨rfl, rfl, rfl, rfl⟩

/-! ### Claim C3: an empty 200 body is reachable (code bug) -/

/-- Request environment in which one recipient is mentioned, the invite
to them succeeds, and composing the caller's own confirmation fails with
a non-credential error (`GetUserInfo` fails for the caller only). -/
def envC3 : JitsiEnv :=
  { timestampHeader := "1234"
    signatureHeader := "v0=sig"
    readBody := .ok "body"
    validRequest := fun _ _ _ _ => true
    slackSigningSecret := "secret"
    parseForm := .ok ⟨"<@U1>", "T3", "team3", "UCALLER"⟩
    serverConfigWriter := ⟨fun _ => .ok (), fun _ => .ok ()⟩
    slash :=
      { meetingGen :=
          ⟨fun _ => .ok ⟨"https://meet.example", false, false⟩, fun _ => .ok "", "room1"⟩
        getFirstBotTokenForTeam := .ok "tok"
        slackClient := fun _ =>
          ⟨fun u => if u = "UCALLER" then .error "timeout" else .ok ⟨u, "n", "i"⟩,
           fun u => .ok ("D" ++ u), fun _ _ _ => .ok ()⟩
        sharableURL := "https://share.example" } }

/-- C3 fails on the code: at `envC3` the handler answers HTTP 200 with an
empty body — which is none of the meeting message, the instructional
messages, the help message, or the install prompt — exactly the response
form the claim says never occurs. -/
theorem jitsi_empty_ok_body_reachable :
    jitsi envC3 = some (.okBody "", ⟨true, true, ["U1"]⟩) ∧
    "" ≠ helpMessage ∧
    "" ≠ installMessage "https://share.example" ∧
    "" ≠ properHostMsg ∧
    "" ≠ defaultServerMsg ∧
    "" ≠ roomTemplate "https://meet.example" "https://meet.example" "https://meet.example/room1" ∧
    "" ≠ userTemplate "https://meet.example" "https://meet.example" "https://meet.example/room1" := by
  refine ⟨rfl, ?_, ?_, ?_, ?_, ?_, ?_⟩ <;> decide

/-! ### Claim C8: base-URL construction -/

/-- C8: whenever the server config of the workspace is readable, the
meeting's host is the config's server, its room name is the generated
room name, and its base URL is `host/lower(teamName)/roomName` when
tenant-scoped and `host/roomName` otherwise. -/
theorem meeting_new_url (gen : MeetingGenerator) (teamID teamName : String)
    (cfg : ServerCfg) (hcfg : gen.serverConfigRead teamID = .ok cfg) :
    ∃ mtg, gen.new teamID teamName = .ok mtg ∧
      mtg.host = cfg.server ∧
      mtg.roomName = gen.randomName ∧
      mtg.url = (if cfg.tenantScopedURLs then
                   cfg.server ++ "/" ++ toLowerGo teamName ++ "/" ++ gen.randomName
                 else cfg.server ++ "/" ++ gen.randomName) := by
  simp only [MeetingGenerator.new, hcfg]
  exact ⟨_, rfl, rfl, rfl, rfl⟩

/-- Tenant-scoped generator used by the C8 witness. -/
def genC8 : MeetingGenerator :=
  ⟨fun _ => .ok ⟨"https://meet.example", true, false⟩, fun _ => .ok "", "room8"⟩

/-- Witness for C8 at a tenant-scoped configuration. -/
theorem meeting_new_url_witness :
    ∃ mtg, genC8.new "T8" "TeamEight" = .ok mtg ∧
      mtg.host = "https://meet.example" ∧
      mtg.roomName = "room8" ∧
      mtg.url = (if true then
                   "https://meet.example" ++ "/" ++ toLowerGo "TeamEight" ++ "/" ++ "room8"
                 else "https://meet.example" ++ "/" ++ "room8") :=
  meeting_new_url genC8 "T8" "TeamEight" ⟨"https://meet.example", true, false⟩ rfl

/-! ### Claim C6: authenticated URL with token signing -/

/-- C6: when the workspace's config has authenticated-URL support, the
meeting's `authenticatedURL` capability submits to the signer a claim set
whose room claim is the meeting's room name and whose subject fields are
the recipient's identity; on success it returns the base URL with
`?jwt={token}` appended, and a signing failure is returned as an error. -/
theorem meeting_authURL_supported (gen : MeetingGenerator) (teamID teamName : String)
    (cfg : ServerCfg) (mtg : Meeting)
    (hcfg : gen.serverConfigRead teamID = .ok cfg)
    (hsup : cfg.authenticatedURLSupport = true)
    (hnew : gen.new teamID teamName = .ok mtg)
    (userID userName avatarURL : String) :
    (∀ jwt,
       gen.createJWT ⟨teamID, teamName, mtg.roomName, userID, userName, avatarURL⟩ = .ok jwt →
       mtg.authenticatedURL userID userName avatarURL = .ok (mtg.url ++ "?jwt=" ++ jwt)) ∧
    (∀ err,
       gen.createJWT ⟨teamID, teamName, mtg.roomName, userID, userName, avatarURL⟩ = .error err →
       mtg.authenticatedURL userID userName avatarURL = .error err) := by
  simp only [MeetingGenerator.new, hcfg, Except.ok.injEq] at hnew
  subst hnew
  constructor
  · intro jwt hj
    simp [hsup, hj]
  · intro err hj
    simp [hsup, hj]

/-- Generator with authenticated-URL support used by the C6 witness; the
signer returns a token naming the subject and the room, and fails for the
user `bad`. -/
def genC6 : MeetingGenerator :=
  ⟨fun _ => .ok ⟨"https://meet.example", false, true⟩,
   fun inp => if inp.userID = "bad" then .error "boom"
              else .ok ("tok-" ++ inp.userID ++ "-" ++ inp.roomClaim),
   "room6"⟩

/-- The meeting `genC6` builds for team `T6`. -/
def mtgC6 : Meeting :=
  match genC6.new "T6" "TeamSix" with
  | .ok m => m
  | .error _ => ⟨"", "", "", fun _ _ _ => .ok ""⟩

/-- Witness for C6: a successful signing appends `?jwt={token}` and a
failing signing surfaces the error. -/
theorem meeting_authURL_supported_witness :
    mtgC6.authenticatedURL "U9" "nine" "av9"
      = .ok (mtgC6.url ++ "?jwt=" ++ ("tok-" ++ "U9" ++ "-" ++ "room6")) ∧
    mtgC6.authenticatedURL "bad" "nine" "av9" = .error "boom" :=
  ⟨(meeting_authURL_supported genC6 "T6" "TeamSix" ⟨"https://meet.example", false, true⟩
      mtgC6 rfl rfl rfl "U9" "nine" "av9").1 _ rfl,
   (meeting_authURL_supported genC6 "T6" "TeamSix" ⟨"https://meet.example", false, true⟩
      mtgC6 rfl rfl rfl "bad" "nine" "av9").2 "boom" rfl⟩

/-! ### Claim C7: authenticated URL without token signing -/

/-- C7: when the workspace's config does not support authenticated URLs,
the capability is a constant function — for every signer and every user
arguments it returns exactly the base URL with no error, so the signer is
never consulted. -/
theorem meeting_authURL_unsupported (readCfg : String → Except String ServerCfg)
    (randomName teamID teamName : String) (cfg : ServerCfg)
    (hcfg : readCfg teamID = .ok cfg)
    (hsup : cfg.authenticatedURLSupport = false)
    (signer : JWTInput → Except String String) :
    ∃ mtg, MeetingGenerator.new ⟨readCfg, signer, randomName⟩ teamID teamName = .ok mtg ∧
      ∀ userID userName avatarURL,
        mtg.authenticatedURL userID userName avatarURL = .ok mtg.url := by
  simp only [MeetingGenerator.new, hcfg]
  refine ⟨_, rfl, ?_⟩
  intro userID userName avatarURL
  simp [hsup]

/-- Witness for C7 at a config without authenticated-URL support and a
signer that always fails: the capability still returns the base URL. -/
theorem meeting_authURL_unsupported_witness :
    ∃ mtg,
      MeetingGenerator.new
          ⟨fun _ => .ok ⟨"https://meet.example", true, false⟩,
           fun _ => .error "never", "room7"⟩ "T7" "TeamSeven" = .ok mtg ∧
      ∀ userID userName avatarURL,
        mtg.authenticatedURL userID userName avatarURL = .ok mtg.url :=
  meeting_authURL_unsupported (fun _ => .ok ⟨"https://meet.example", true, false⟩)
    "room7" "T7" "TeamSeven" ⟨"https://meet.example", true, false⟩ rfl rfl
    (fun _ => .error "never")

/-! ### Claim C4: zero mentions — channel message, token store untouched -/

/-- C4: when the command text contains no `@`-mention token, the
dispatcher answers with the channel-wide meeting-started message carrying
the meeting's base URL, and the token store is never queried —
`GetFirstBotTokenForTeam` is not called on any path with zero mentions. -/
theorem dispatchInvites_no_mentions (s : SlashCommandEnv)
    (teamID teamName text userID : String)
    (hscan : atMentionFindAll text.data = []) :
    (∀ mtg, s.meetingGen.new teamID teamName = .ok mtg →
       dispatchInvites s teamID teamName text userID =
         (.okBody (roomTemplate mtg.host mtg.host mtg.url), ⟨false, []⟩)) ∧
    (dispatchInvites s teamID teamName text userID).2.queriedTokenStore = false := by
  constructor
  · intro mtg hmtg
    simp [dispatchInvites, hmtg, hscan]
  · cases hm : s.meetingGen.new teamID teamName with
    | error e => simp [dispatchInvites, hm]
    | ok mtg => simp [dispatchInvites, hm, hscan]

/-- Dispatch environment used by the C4 witness. -/
def envC4 : SlashCommandEnv :=
  { meetingGen := ⟨fun _ => .ok ⟨"https://meet.example", false, false⟩, fun _ => .ok "", "room4"⟩
    getFirstBotTokenForTeam := .ok "tok"
    slackClient := fun _ => ⟨fun u => .ok ⟨u, "n", "i"⟩, fun _ => .ok "D", fun _ _ _ => .ok ()⟩
    sharableURL := "https://share.example" }

/-- The meeting `envC4` builds. -/
def mtgC4 : Meeting :=
  match envC4.meetingGen.new "T4" "teamFour" with
  | .ok m => m
  | .error _ => ⟨"", "", "", fun _ _ _ => .ok ""⟩

/-- Witness for C4 at a mention-free command text. -/
theorem dispatchInvites_no_mentions_witness :
    dispatchInvites envC4 "T4" "teamFour" "just the channel please" "U4" =
      (.okBody (roomTemplate mtgC4.host mtgC4.host mtgC4.url), ⟨false, []⟩) ∧
    (dispatchInvites envC4 "T4" "teamFour" "just the channel please" "U4").2.queriedTokenStore
      = false :=
  ⟨(dispatchInvites_no_mentions envC4 "T4" "teamFour" "just the channel please" "U4"
      (by decide)).1 mtgC4 rfl,
   (dispatchInvites_no_mentions envC4 "T4" "teamFour" "just the channel please" "U4"
      (by decide)).2⟩

/-! ### Claim C1: the invite-dispatch loop -/

/-- When no send fails with a credential-invalidation code, the loop
attempts every recipient and does not abort. -/
theorem inviteEach_all_ok (send : String → Except String Unit) (sharableURL : String)
    (l : List String) (h : ∀ v ∈ l, isCredFail (send v) = false) :
    inviteEach send sharableURL l = (none, l) := by
  induction l with
  | nil => rfl
  | cons u rest ih =>
    have hu := h u (List.mem_cons_self u rest)
    have hrest : ∀ v ∈ rest, isCredFail (send v) = false := fun v hv =>
      h v (List.mem_cons_of_mem _ hv)
    cases hs : send u with
    | ok _ => simp [inviteEach, hs, ih hrest]
    | error e =>
      have hce : credentialErr e = false := by simpa [isCredFail, hs] using hu
      simp [inviteEach, hs, hce, ih hrest]

/-- A credential-invalidation failure aborts the loop at the recipient it
occurs for: only the earlier recipients and that one were attempted, and
the install prompt is the early response. -/
theorem inviteEach_cred_abort (send : String → Except String Unit) (sharableURL : String)
    (pre : List String) (u : String) (post : List String)
    (hpre : ∀ v ∈ pre, isCredFail (send v) = false)
    (hu : isCredFail (send u) = true) :
    inviteEach send sharableURL (pre ++ u :: post)
      = (some (installResponse sharableURL), pre ++ [u]) := by
  induction pre with
  | nil =>
    cases hs : send u with
    | ok _ => simp [isCredFail, hs] at hu
    | error e =>
      have hce : credentialErr e = true := by simpa [isCredFail, hs] using hu
      simp [inviteEach, hs, hce]
  | cons a pre ih =>
    have ha := hpre a (List.mem_cons_self a pre)
    have hpre' : ∀ v ∈ pre, isCredFail (send v) = false := fun v hv =>
      hpre v (List.mem_cons_of_mem _ hv)
    cases hs : send a with
    | ok _ => simp [inviteEach, hs, ih hpre']
    | error e =>
      have hce : credentialErr e = false := by simpa [isCredFail, hs] using ha
      simp [inviteEach, hs, hce, ih hpre']

/-- C1: with the meeting built and a token fetched, (a) if the send to
some mentioned recipient fails with one of the credential-invalidation
error codes and no earlier send did, the loop stops there — the later
recipients are never attempted — and the response is the install prompt;
(b) if no send fails with a credential code (transient failures are
logged and skipped), all recipients are attempted and the caller receives
the personalized confirmation composed for them. -/
theorem dispatchInvites_loop (s : SlashCommandEnv) (teamID teamName text userID : String)
    (mtg : Meeting) (token : String)
    (hmtg : s.meetingGen.new teamID teamName = .ok mtg)
    (htok : s.getFirstBotTokenForTeam = .ok token) :
    (∀ pre u post,
       (atMentionFindAll text.data).map (fun m => String.mk m) = pre ++ u :: post →
       (∀ v ∈ pre,
          isCredFail (sendPersonalizedInvite (s.slackClient token) userID v mtg) = false) →
       isCredFail (sendPersonalizedInvite (s.slackClient token) userID u mtg) = true →
       dispatchInvites s teamID teamName text userID =
         (installResponse s.sharableURL, ⟨true, pre ++ [u]⟩)) ∧
    (∀ msg,
       atMentionFindAll text.data ≠ [] →
       (∀ v ∈ (atMentionFindAll text.data).map (fun m => String.mk m),
          isCredFail (sendPersonalizedInvite (s.slackClient token) userID v mtg) = false) →
       joinPersonalMeetingMsg (s.slackClient token) userID mtg = .ok msg →
       dispatchInvites s teamID teamName text userID =
         (.okBody msg, ⟨true, (atMentionFindAll text.data).map (fun m => String.mk m)⟩)) := by
  constructor
  · intro pre u post hids hpre hu
    have hne : atMentionFindAll text.data ≠ [] := by
      intro h0
      rw [h0] at hids
      simp at hids
    have hloop := inviteEach_cred_abort
      (fun v => sendPersonalizedInvite (s.slackClient token) userID v mtg)
      s.sharableURL pre u post hpre hu
    simp [dispatchInvites, hmtg, hne, htok, hids, hloop]
  · intro msg hne hall hcomp
    have hloop := inviteEach_all_ok
      (fun v => sendPersonalizedInvite (s.slackClient token) userID v mtg)
      s.sharableURL ((atMentionFindAll text.data).map fun m => String.mk m) hall
    simp [dispatchInvites, hmtg, hne, htok, hloop, hcomp]

/-- Dispatch environment for the C1 witness, credential-abort case: the
private-channel open fails with `account_inactive` for `U2`. -/
def envC1a : SlashCommandEnv :=
  { meetingGen := ⟨fun _ => .ok ⟨"https://meet.example", false, false⟩, fun _ => .ok "", "room1"⟩
    getFirstBotTokenForTeam := .ok "tok"
    slackClient := fun _ =>
      ⟨fun u => .ok ⟨u, "n", "i"⟩,
       fun u => if u = "U2" then .error "account_inactive" else .ok ("D" ++ u),
       fun _ _ _ => .ok ()⟩
    sharableURL := "https://share.example" }

/-- The meeting `envC1a` builds. -/
def mtgC1a : Meeting :=
  match envC1a.meetingGen.new "T1" "teamOne" with
  | .ok m => m
  | .error _ => ⟨"", "", "", fun _ _ _ => .ok ""⟩

/-- Dispatch environment for the C1 witness, transient-failure case: the
private-channel open fails with a generic `timeout` for `U2`. -/
def envC1b : SlashCommandEnv :=
  { meetingGen := ⟨fun _ => .ok ⟨"https://meet.example", false, false⟩, fun _ => .ok "", "room1"⟩
    getFirstBotTokenForTeam := .ok "tok"
    slackClient := fun _ =>
      ⟨fun u => .ok ⟨u, "n", "i"⟩,
       fun u => if u = "U2" then .error "timeout" else .ok ("D" ++ u),
       fun _ _ _ => .ok ()⟩
    sharableURL := "https://share.example" }

/-- The meeting `envC1b` builds. -/
def mtgC1b : Meeting :=
  match envC1b.meetingGen.new "T1" "teamOne" with
  | .ok m => m
  | .error _ => ⟨"", "", "", fun _ _ _ => .ok ""⟩

/-- Witness for C1 on three mentioned recipients: a credential error on
recipient 2 of 3 aborts recipient 3 and yields the install prompt, while
a generic error on recipient 2 of 3 still attempts recipient 3 and still
returns the caller's personalized confirmation. -/
theorem dispatchInvites_loop_witness :
    dispatchInvites envC1a "T1" "teamOne" "<@U1> <@U2> <@U3>" "UC" =
      (installResponse "https://share.example", ⟨true, ["U1", "U2"]⟩) ∧
    dispatchInvites envC1b "T1" "teamOne" "<@U1> <@U2> <@U3>" "UC" =
      (.okBody (userTemplate "https://meet.example" "https://meet.example"
          "https://meet.example/room1"),
       ⟨true, ["U1", "U2", "U3"]⟩) :=
  ⟨(dispatchInvites_loop envC1a "T1" "teamOne" "<@U1> <@U2> <@U3>" "UC" mtgC1a "tok"
      rfl rfl).1 ["U1"] "U2" ["U3"] (by decide) (by decide) (by decide),
   (dispatchInvites_loop envC1b "T1" "teamOne" "<@U1> <@U2> <@U3>" "UC" mtgC1b "tok"
      rfl rfl).2 _ (by decide) (by decide) rfl⟩

/-! ### Claim C10: mention extraction -/

/-- A character that is not `'<'` can neither start a match nor change
the scanning state, so the scanner skips it. -/
theorem atMentionGo_none_cons_ne (c : Char) (l : List Char) (h : ¬ c = '<') :
    atMentionGo none (c :: l) = atMentionGo none l := by
  rcases l with _ | ⟨a, _ | ⟨b, r⟩⟩ <;>
    first
      | rfl
      | (rw [atMentionGo.eq_def]; split <;> simp_all)

/-- The scanner ignores a `'<'`-free segment. -/
theorem atMentionGo_none_skip (sep x : List Char) (h : '<' ∉ sep) :
    atMentionGo none (sep ++ x) = atMentionGo none x := by
  induction sep with
  | nil => rfl
  | cons c sep ih =>
    rw [List.cons_append,
      atMentionGo_none_cons_ne c _ (fun hc => h (hc ▸ List.mem_cons_self c sep)),
      ih (fun hm => h (List.mem_cons_of_mem c hm))]

/-- A `'<'`-free text contains no mention. -/
theorem atMentionGo_none_no_lt (l : List Char) (h : '<' ∉ l) :
    atMentionGo none l = [] := by
  induction l with
  | nil => rfl
  | cons c l ih =>
    rw [atMentionGo_none_cons_ne c _ (fun hc => h (hc ▸ List.mem_cons_self c l)),
      ih (fun hm => h (List.mem_cons_of_mem c hm))]

/-- At `<@` followed by a run character the scanner enters run
collection. -/
theorem atMentionGo_enter (d : Char) (r2 : List Char) (hd : mentionRunChar d = true) :
    atMentionGo none ('<' :: '@' :: d :: r2) = atMentionGo (some [d]) r2 := by
  simp [atMentionGo, hd]

/-- Run collection is greedy: it consumes the whole run, emits it, and
resumes scanning after the terminating character. -/
theorem atMentionGo_run (run : List Char) (b : Char) (tail : List Char)
    (hrun : ∀ c ∈ run, mentionRunChar c = true) (hb : mentionRunChar b = false) :
    ∀ acc, atMentionGo (some acc) (run ++ b :: tail)
      = (acc.reverse ++ run) :: atMentionGo none tail := by
  induction run with
  | nil => intro acc; simp [atMentionGo, hb]
  | cons c run ih =>
    intro acc
    have hc : mentionRunChar c = true := hrun c (List.mem_cons_self c run)
    have hrun' : ∀ x ∈ run, mentionRunChar x = true := fun x hx =>
      hrun x (List.mem_cons_of_mem c hx)
    rw [List.cons_append]
    simp only [atMentionGo, hc, if_pos]
    rw [ih hrun' (c :: acc)]
    simp

/-- A command text containing the given mention tokens: each piece is a
separator segment followed by `<@`, an identifier, and the closing `>`. -/
def mentionText : List (List Char × List Char) → List Char → List Char
  | [], tail => tail
  | (sep, mid) :: ps, tail => sep ++ '<' :: '@' :: (mid ++ '>' :: mentionText ps tail)

/-- C10: for every command text containing exactly the given N mention
tokens (identifiers non-empty and free of the terminating characters,
separators free of `'<'`), extraction yields exactly the N identifiers,
in left-to-right order of appearance, duplicates preserved. -/
theorem atMentionFindAll_mentions (ps : List (List Char × List Char)) (tail : List Char)
    (hsep : ∀ p ∈ ps, '<' ∉ p.1)
    (hid : ∀ p ∈ ps, p.2 ≠ [] ∧ ∀ c ∈ p.2, mentionRunChar c = true)
    (htail : '<' ∉ tail) :
    atMentionFindAll (mentionText ps tail) = ps.map Prod.snd ∧
    (atMentionFindAll (mentionText ps tail)).length = ps.length := by
  have main : atMentionFindAll (mentionText ps tail) = ps.map Prod.snd := by
    induction ps with
    | nil => exact atMentionGo_none_no_lt tail htail
    | cons p ps ih =>
      obtain ⟨sep, mid⟩ := p
      have hs1 : '<' ∉ sep := hsep _ (List.mem_cons_self _ _)
      obtain ⟨hne, hchars⟩ := hid _ (List.mem_cons_self _ _)
      cases mid with
      | nil => exact absurd rfl hne
      | cons d id2 =>
        have hd : mentionRunChar d = true := hchars d (List.mem_cons_self d id2)
        have hchars2 : ∀ c ∈ id2, mentionRunChar c = true := fun c hc =>
          hchars c (List.mem_cons_of_mem d hc)
        have ihm := ih (fun q hq => hsep q (List.mem_cons_of_mem _ hq))
          (fun q hq => hid q (List.mem_cons_of_mem _ hq))
        show atMentionGo none
          (sep ++ '<' :: '@' :: ((d :: id2) ++ '>' :: mentionText ps tail)) = _
        rw [atMentionGo_none_skip sep _ hs1, List.cons_append,
          atMentionGo_enter d _ hd,
          atMentionGo_run id2 '>' (mentionText ps tail) hchars2 rfl [d]]
        simp only [List.reverse_cons, List.reverse_nil, List.nil_append,
          List.singleton_append, List.map_cons]
        exact congrArg _ ihm
  exact ⟨main, by rw [main, List.length_map]⟩

/-- Witness for C10 at a text with three mention tokens, two of them the
same identifier. -/
theorem atMentionFindAll_mentions_witness :
    atMentionFindAll
        (mentionText
          [("".data, "U1".data), (" hey ".data, "U2".data), (" ".data, "U1".data)]
          " bye".data)
      = ["U1".data, "U2".data, "U1".data] ∧
    (atMentionFindAll
        (mentionText
          [("".data, "U1".data), (" hey ".data, "U2".data), (" ".data, "U1".data)]
          " bye".data)).length = 3 :=
  atMentionFindAll_mentions
    [("".data, "U1".data), (" hey ".data, "U2".data), (" ".data, "U1".data)]
    " bye".data (by decide) (by decide) (by decide)

end JitsiSlack
